import Mathlib

/-!
Shallow embedding of the `money` library (src/src/lib.rs): a parser from
strings of the form "<amount> <currency>" to a `Money` value object, with a
classified error type. Floating-point amounts (`f32` in the source) are
modelled symbolically: finite values as exact rationals given by the decimal
literal, plus signed infinities and NaN, which is what the claims about the
parser's behaviour depend on.
-/

namespace MoneyModel

/-- `Currency` from lib.rs: a closed enumeration with variants `Dollar` and
`Euro`, deriving structural equality. -/
inductive Currency where
  | Dollar
  | Euro
deriving DecidableEq, Repr

/-- The kind inside `std::num::ParseFloatError`: Rust distinguishes an empty
input from an otherwise invalid float literal. -/
inductive FloatErrorKind where
  | Empty
  | Invalid
deriving DecidableEq, Repr

/-- Model of `std::num::ParseFloatError` (an opaque struct wrapping a kind). -/
structure ParseFloatError where
  kind : FloatErrorKind
deriving DecidableEq, Repr

/-- `MoneyError` from lib.rs: the three error variants with their payloads. -/
inductive MoneyError where
  | ParseAmount (e : ParseFloatError)
  | ParseCurrency (msg : String)
  | ParseFormatting (msg : String)
deriving DecidableEq, Repr

/-- Symbolic model of an `f32` value as produced by `f32::from_str`: a finite
value (the exact rational denoted by the accepted literal), a signed
infinity, or NaN. -/
inductive FVal where
  | finite (q : ℚ)
  | inf (neg : Bool)
  | nan
deriving DecidableEq, Repr

/-- `Money` from lib.rs: an amount (`f32`) and a `Currency`. -/
structure Money where
  amount : FVal
  currency : Currency
deriving DecidableEq, Repr

/-- Rust `PartialEq` on the modelled `f32`: NaN compares unequal to
everything, including itself; other values compare structurally. -/
def FVal.peq : FVal → FVal → Bool
  | FVal.finite a, FVal.finite b => decide (a = b)
  | FVal.inf a, FVal.inf b => decide (a = b)
  | _, _ => false

/-- The derived `PartialEq` on `Money`: both fields must compare equal, the
amount under `f32` equality (so a NaN amount makes the comparison false). -/
def Money.peq (a b : Money) : Bool :=
  FVal.peq a.amount b.amount && decide (a.currency = b.currency)

/-- ASCII lowercasing of one character, modelling what `str::to_lowercase`
does on the characters relevant to the currency tokens. -/
def charToLower (c : Char) : Char :=
  if 65 ≤ c.toNat ∧ c.toNat ≤ 90 then Char.ofNat (c.toNat + 32) else c

/-- Model of `str::to_lowercase`. -/
def toLowercase (s : String) : String :=
  String.mk (s.data.map charToLower)

/-- The Unicode `White_Space` code points, the splitting predicate of Rust's
`str::split_whitespace`. -/
def isRustWhitespace (c : Char) : Bool :=
  decide (c.toNat ∈ [9, 10, 11, 12, 13, 32, 133, 160, 5760, 8192, 8193,
    8194, 8195, 8196, 8197, 8198, 8199, 8200, 8201, 8202, 8232, 8233, 8239,
    8287, 12288])

/-- Worker for `splitWhitespace`: walks the characters, accumulating the
current (reversed) token. -/
def splitWsAux : List Char → List Char → List String
  | [], [] => []
  | [], cur => [String.mk cur.reverse]
  | c :: rest, cur =>
    if isRustWhitespace c then
      match cur with
      | [] => splitWsAux rest []
      | _ => String.mk cur.reverse :: splitWsAux rest []
    else splitWsAux rest (c :: cur)

/-- Model of `str::split_whitespace().collect::<Vec<_>>()`: maximal runs of
non-whitespace characters, empty fragments discarded. -/
def splitWhitespace (s : String) : List String :=
  splitWsAux s.data []

/-- Reads a (possibly empty) run of decimal digits, returning the value read,
the number of digits, and the remaining characters. -/
def parseDigitsAux : ℕ → ℕ → List Char → ℕ × ℕ × List Char
  | acc, n, [] => (acc, n, [])
  | acc, n, c :: rest =>
    if c.isDigit then parseDigitsAux (10 * acc + (c.toNat - 48)) (n + 1) rest
    else (acc, n, c :: rest)

/-- The exact rational value of a decimal float literal with sign `neg`,
decimal mantissa `mant` scaled by `fracLen` fractional digits, and decimal
exponent `e` with sign `eneg`:
`(-1)^neg * mant * 10^(±e) / 10^fracLen`, assembled with one `mkRat` so the
value is kernel-computable. -/
def mkFinite (neg : Bool) (mant fracLen : ℕ) (eneg : Bool) (e : ℕ) : FVal :=
  let num : ℤ := if neg then -(mant : ℤ) else (mant : ℤ)
  if eneg then FVal.finite (mkRat num (10 ^ (fracLen + e)))
  else FVal.finite (mkRat (num * 10 ^ e) (10 ^ fracLen))

/-- Finishes a float literal after its mantissa (`mant` with `fracLen`
fractional digits): either the end of input or an exponent part
`('e'|'E') Sign? Count`, per the grammar documented for `f32::from_str`. -/
def expPart (neg : Bool) (mant fracLen : ℕ) : List Char → Option FVal
  | [] => some (mkFinite neg mant fracLen false 0)
  | c :: rest =>
    if c = 'e' ∨ c = 'E' then
      let (eneg, r1) :=
        match rest with
        | '+' :: r => (false, r)
        | '-' :: r => (true, r)
        | r => (false, r)
      let (e, n, r2) := parseDigitsAux 0 0 r1
      if n = 0 ∨ r2 ≠ [] then none
      else some (mkFinite neg mant fracLen eneg e)
    else none

/-- The `Number` production of the `f32::from_str` grammar:
`Count '.'? Count? Exp?` or `'.' Count Exp?`. -/
def parseNumber (neg : Bool) (cs : List Char) : Option FVal :=
  match cs with
  | '.' :: rest =>
    let (frac, n, r) := parseDigitsAux 0 0 rest
    if n = 0 then none
    else expPart neg frac n r
  | _ =>
    let (ip, n, r) := parseDigitsAux 0 0 cs
    if n = 0 then none
    else
      match r with
      | '.' :: r2 =>
        let (frac, m, r3) := parseDigitsAux 0 0 r2
        expPart neg (ip * 10 ^ m + frac) m r3
      | _ => expPart neg ip 0 r

/-- The whole `f32::from_str` grammar:
`Sign? ( 'inf' | 'infinity' | 'nan' | Number )`, keywords case-insensitive,
the whole input consumed. -/
def parseF32Chars (cs : List Char) : Option FVal :=
  let (neg, cs1) :=
    match cs with
    | '+' :: r => (false, r)
    | '-' :: r => (true, r)
    | r => (false, r)
  let low := cs1.map charToLower
  if low = "inf".data ∨ low = "infinity".data then some (FVal.inf neg)
  else if low = "nan".data then some FVal.nan
  else parseNumber neg cs1

/-- Model of `f32::from_str` (`amount.parse::<f32>()` in lib.rs): empty input
yields the `Empty` error kind, a grammar mismatch the `Invalid` kind. -/
def f32FromStr (s : String) : Except ParseFloatError FVal :=
  if s.data = [] then Except.error ⟨FloatErrorKind.Empty⟩
  else
    match parseF32Chars s.data with
    | some v => Except.ok v
    | none => Except.error ⟨FloatErrorKind.Invalid⟩

/-- The match block of `Currency::from_str` in lib.rs, as a function of the
already-lowercased token. The third Euro alternative is the literal
three-character string `"â‚¬"` that appears in the source
(bytes C3 A2 E2 80 9A C2 AC). -/
def currencyMatch (l : String) : Except MoneyError Currency :=
  if l = "dollar" ∨ l = "$" then Except.ok Currency.Dollar
  else if l = "euro" ∨ l = "eur" ∨ l = "â‚¬" then
    Except.ok Currency.Euro
  else Except.error (MoneyError.ParseCurrency "Unknown currency")

/-- `Currency::from_str`: lowercase the token, then match it. -/
def Currency.fromStr (s : String) : Except MoneyError Currency :=
  currencyMatch (toLowercase s)

/-- `Money::from_str`: split on whitespace; on exactly two tokens parse the
amount (first, via `?`) then the currency, otherwise fail with the
formatting error. -/
def Money.fromStr (s : String) : Except MoneyError Money :=
  match splitWhitespace s with
  | [amount, currency] =>
    match f32FromStr amount with
    | Except.error e => Except.error (MoneyError.ParseAmount e)
    | Except.ok a =>
      match Currency.fromStr currency with
      | Except.error e => Except.error e
      | Except.ok c => Except.ok ⟨a, c⟩
  | _ => Except.error (MoneyError.ParseFormatting "Expecting amount and currency")

instance {ε α : Type} [DecidableEq ε] [DecidableEq α] :
    DecidableEq (Except ε α) := fun a b =>
  match a, b with
  | Except.error e, Except.error f =>
    if h : e = f then isTrue (by rw [h]) else isFalse (by simp [h])
  | Except.error _, Except.ok _ => isFalse (by simp)
  | Except.ok _, Except.error _ => isFalse (by simp)
  | Except.ok x, Except.ok y =>
    if h : x = y then isTrue (by rw [h]) else isFalse (by simp [h])

/-- Recognizer for results that are a `ParseAmount` error. -/
def isParseAmountErr : Except MoneyError Money → Bool
  | Except.error (MoneyError.ParseAmount _) => true
  | _ => false

/-- Unfolding lemma: on an input that splits into exactly two tokens,
`Money::from_str` takes the two-token branch. -/
theorem fromStr_eq_two (s t0 t1 : String) (hs : splitWhitespace s = [t0, t1]) :
    Money.fromStr s =
      (match f32FromStr t0 with
        | Except.error e => Except.error (MoneyError.ParseAmount e)
        | Except.ok a =>
          match Currency.fromStr t1 with
          | Except.error e => Except.error e
          | Except.ok c => Except.ok ⟨a, c⟩) := by
  unfold Money.fromStr
  rw [hs]

/-- Unfolding lemma: on an input whose token count is not two,
`Money::from_str` takes the formatting-error branch. -/
theorem fromStr_not_two (s : String) (h : (splitWhitespace s).length ≠ 2) :
    Money.fromStr s =
      Except.error (MoneyError.ParseFormatting "Expecting amount and currency") := by
  unfold Money.fromStr
  cases hs : splitWhitespace s with
  | nil => rfl
  | cons t0 rest =>
    cases rest with
    | nil => rfl
    | cons t1 rest2 =>
      cases rest2 with
      | nil => rw [hs] at h; simp at h
      | cons t2 rest3 => rfl

theorem charToLower_idem (c : Char) :
    charToLower (charToLower c) = charToLower c := by
  by_cases h : 65 ≤ c.toNat ∧ c.toNat ≤ 90
  · have hc : charToLower c = Char.ofNat (c.toNat + 32) := by
      unfold charToLower
      rw [if_pos h]
    rw [hc]
    obtain ⟨h1, h2⟩ := h
    generalize hn : c.toNat = n
    rw [hn] at h1 h2
    interval_cases n <;> decide
  · have hc : charToLower c = c := by
      unfold charToLower
      rw [if_neg h]
    rw [hc, hc]

theorem mapLower_idem (l : List Char) :
    List.map charToLower (List.map charToLower l) = List.map charToLower l := by
  induction l with
  | nil => rfl
  | cons c t ih => simp [List.map_cons, ih, charToLower_idem]

theorem toLowercase_idem (s : String) :
    toLowercase (toLowercase s) = toLowercase s := by
  show String.mk (List.map charToLower (List.map charToLower s.data)) =
    String.mk (List.map charToLower s.data)
  rw [mapLower_idem]

/-- C2: the concrete round-trip scenarios hold: "100 Euro" parses to
100 Euros, "10 $" to 10 Dollars, and "42.4 DOLLAR" to 42.4 (the exact
rational 212/5) Dollars. -/
theorem roundtrip_scenarios :
    Money.fromStr "100 Euro" = Except.ok ⟨FVal.finite 100, Currency.Euro⟩ ∧
    Money.fromStr "10 $" = Except.ok ⟨FVal.finite 10, Currency.Dollar⟩ ∧
    Money.fromStr "42.4 DOLLAR" =
      Except.ok ⟨FVal.finite (mkRat 212 5), Currency.Dollar⟩ := by
  refine ⟨by decide, by decide, by decide⟩

/-- C3: every input that does not split into exactly two whitespace-separated
tokens is rejected with `ParseFormatting "Expecting amount and currency"`,
uniformly. -/
theorem formatting_non_two_tokens (s : String)
    (h : (splitWhitespace s).length ≠ 2) :
    Money.fromStr s =
      Except.error (MoneyError.ParseFormatting "Expecting amount and currency") :=
  fromStr_not_two s h

/-- Witness for C3: "140.01" is a one-token input and is rejected with the
formatting error. -/
theorem formatting_non_two_tokens_witness :
    Money.fromStr "140.01" =
      Except.error (MoneyError.ParseFormatting "Expecting amount and currency") :=
  formatting_non_two_tokens "140.01" (by decide)

/-- C7: token order is fixed: "Euro 100" fails, and it fails with a
`ParseAmount` error because the currency token sits in the amount
position and is not a valid float literal. -/
theorem order_fixed :
    Money.fromStr "Euro 100" =
      Except.error (MoneyError.ParseAmount ⟨FloatErrorKind.Invalid⟩) := by
  decide

/-- C10: the amount grammar inherited from `f32::from_str` accepts scientific
notation and the special literals: "1e3 Euro" parses to 1000 Euros, and
"inf $" and "NaN $" both parse successfully rather than failing with
`ParseAmount`. -/
theorem float_grammar_scenarios :
    Money.fromStr "1e3 Euro" = Except.ok ⟨FVal.finite 1000, Currency.Euro⟩ ∧
    Money.fromStr "inf $" = Except.ok ⟨FVal.inf false, Currency.Dollar⟩ ∧
    Money.fromStr "NaN $" = Except.ok ⟨FVal.nan, Currency.Dollar⟩ := by
  refine ⟨by decide, by decide, by decide⟩

/-- C1 counterexample: the claim that exactly the four tokens dollar, $,
euro, eur are accepted is false. The source also accepts the literal
three-character token "â‚¬": the input "1 â‚¬" has a valid float as
first token and a second token outside the four listed ones, yet parsing
succeeds instead of returning the unknown-currency error. -/
theorem currency_tokens_counterexample :
    splitWhitespace "1 â‚¬" = ["1", "â‚¬"] ∧
    (f32FromStr "1").isOk = true ∧
    toLowercase "â‚¬" ∉ (["dollar", "$", "euro", "eur"] : List String) ∧
    Money.fromStr "1 â‚¬" =
      Except.ok ⟨FVal.finite 1, Currency.Euro⟩ := by
  refine ⟨by decide, by decide, by decide, by decide⟩

/-- C1 amended: exactly five tokens are accepted as currencies,
case-insensitively: dollar, $, euro, eur, and the literal token
"â‚¬" appearing in the source; whenever the first token parses as a
float and the lowercased second token is none of these five, parsing
fails with `ParseCurrency "Unknown currency"`. -/
theorem currency_tokens_amended (s t0 t1 : String)
    (hs : splitWhitespace s = [t0, t1])
    (ha : (f32FromStr t0).isOk = true)
    (hc : toLowercase t1 ∉
      (["dollar", "$", "euro", "eur", "â‚¬"] : List String)) :
    Money.fromStr s = Except.error (MoneyError.ParseCurrency "Unknown currency") := by
  have h1 : toLowercase t1 ≠ "dollar" := fun he => hc (by rw [he]; decide)
  have h2 : toLowercase t1 ≠ "$" := fun he => hc (by rw [he]; decide)
  have h3 : toLowercase t1 ≠ "euro" := fun he => hc (by rw [he]; decide)
  have h4 : toLowercase t1 ≠ "eur" := fun he => hc (by rw [he]; decide)
  have h5 : toLowercase t1 ≠ "â‚¬" := fun he => hc (by rw [he]; decide)
  have hcur : Currency.fromStr t1 =
      Except.error (MoneyError.ParseCurrency "Unknown currency") := by
    unfold Currency.fromStr currencyMatch
    rw [if_neg (by simp [h1, h2]), if_neg (by simp [h3, h4, h5])]
  rw [fromStr_eq_two s t0 t1 hs]
  cases hv : f32FromStr t0 with
  | error e => rw [hv] at ha; simp [Except.isOk, Except.toBool] at ha
  | ok a => rw [hcur]

/-- Witness for the amended C1: "5 abc" is rejected with the
unknown-currency error. -/
theorem currency_tokens_amended_witness :
    Money.fromStr "5 abc" =
      Except.error (MoneyError.ParseCurrency "Unknown currency") :=
  currency_tokens_amended "5 abc" "5" "abc" (by decide) (by decide) (by decide)

/-- C4 counterexample: the claim that two runs on the same input yield `Money`
values equal under the type's structural equality (the derived `PartialEq`)
is false on "NaN $": both runs return the same `Ok` value, but that value
compares unequal to itself because NaN is unequal to NaN under `f32`
equality. -/
theorem structural_eq_counterexample :
    Money.fromStr "NaN $" = Except.ok ⟨FVal.nan, Currency.Dollar⟩ ∧
    Money.peq ⟨FVal.nan, Currency.Dollar⟩ ⟨FVal.nan, Currency.Dollar⟩ = false := by
  refine ⟨by decide, by decide⟩

/-- C4 amended: parsing is deterministic, with no hidden state: two runs on
the same input yield identical results; and whenever the parsed amount is
not NaN, the resulting value is also equal to itself under the derived
`PartialEq` (with a NaN amount the two identical `Ok` values compare
unequal, since NaN is unequal to NaN). -/
theorem parse_deterministic (s : String) (m : Money) :
    Money.fromStr s = Money.fromStr s ∧
    (Money.fromStr s = Except.ok m → m.amount ≠ FVal.nan →
      Money.peq m m = true) := by
  refine ⟨rfl, fun hok hnan => ?_⟩
  unfold Money.peq
  rw [Bool.and_eq_true]
  constructor
  · cases ha : m.amount with
    | finite q => simp [FVal.peq]
    | inf b => simp [FVal.peq]
    | nan => exact absurd ha hnan
  · simp

/-- Witness for the amended C4: the value parsed from "10 $" is
`PartialEq`-equal to itself. -/
theorem parse_deterministic_witness :
    Money.peq ⟨FVal.finite 10, Currency.Dollar⟩
      ⟨FVal.finite 10, Currency.Dollar⟩ = true :=
  (parse_deterministic "10 $" ⟨FVal.finite 10, Currency.Dollar⟩).2
    (by decide) (by decide)

/-- C5: on a two-token input whose amount token is not a valid float literal
and whose currency token is also unrecognized, parsing reports the
`ParseAmount` error: the amount is validated before the currency and the
first failure is returned. -/
theorem amount_before_currency (s t0 t1 : String)
    (hs : splitWhitespace s = [t0, t1])
    (ha : (f32FromStr t0).isOk = false)
    (hc : (Currency.fromStr t1).isOk = false) :
    isParseAmountErr (Money.fromStr s) = true := by
  rw [fromStr_eq_two s t0 t1 hs]
  cases hv : f32FromStr t0 with
  | ok a => rw [hv] at ha; simp [Except.isOk, Except.toBool] at ha
  | error e => rfl

/-- Witness for C5: "abc xyz" has an invalid amount and an invalid currency,
and is reported as a `ParseAmount` error. -/
theorem amount_before_currency_witness :
    isParseAmountErr (Money.fromStr "abc xyz") = true :=
  amount_before_currency "abc xyz" "abc" "xyz" (by decide) (by decide) (by decide)

/-- C6: currency matching is invariant under lowercasing the token, and the
three concrete spellings "5 eur", "5 EUR", "5 Euro" all parse to 5 Euros. -/
theorem currency_case_insensitive (s : String) :
    Currency.fromStr s = Currency.fromStr (toLowercase s) ∧
    Money.fromStr "5 eur" = Except.ok ⟨FVal.finite 5, Currency.Euro⟩ ∧
    Money.fromStr "5 EUR" = Except.ok ⟨FVal.finite 5, Currency.Euro⟩ ∧
    Money.fromStr "5 Euro" = Except.ok ⟨FVal.finite 5, Currency.Euro⟩ := by
  refine ⟨?_, by decide, by decide, by decide⟩
  show currencyMatch (toLowercase s) = currencyMatch (toLowercase (toLowercase s))
  rw [toLowercase_idem]

/-- C8: every successfully parsed `Money` has a currency among the two known
variants and an amount equal to the float parsed from the first token; no
further range or sign validation happens, so negative and NaN amounts are
accepted. -/
theorem money_invariant (s : String) (m : Money)
    (h : Money.fromStr s = Except.ok m) :
    (m.currency = Currency.Dollar ∨ m.currency = Currency.Euro) ∧
    (∃ t0 t1, splitWhitespace s = [t0, t1] ∧ f32FromStr t0 = Except.ok m.amount) ∧
    Money.fromStr "-5 $" =
      Except.ok ⟨FVal.finite (mkRat (-5) 1), Currency.Dollar⟩ ∧
    Money.fromStr "NaN Euro" = Except.ok ⟨FVal.nan, Currency.Euro⟩ := by
  refine ⟨?_, ?_, by decide, by decide⟩
  · cases hc : m.currency
    · exact Or.inl rfl
    · exact Or.inr rfl
  · cases hs : splitWhitespace s with
    | nil =>
      rw [fromStr_not_two s (by rw [hs]; decide)] at h
      exact absurd h (by simp)
    | cons t0 rest =>
      cases rest with
      | nil =>
        rw [fromStr_not_two s (by rw [hs]; simp)] at h
        exact absurd h (by simp)
      | cons t1 rest2 =>
        cases rest2 with
        | cons t2 rest3 =>
          rw [fromStr_not_two s
            (by rw [hs]; simp only [List.length_cons]; omega)] at h
          exact absurd h (by simp)
        | nil =>
          rw [fromStr_eq_two s t0 t1 hs] at h
          cases hv : f32FromStr t0 with
          | error e => rw [hv] at h; exact absurd h (by simp)
          | ok a =>
            rw [hv] at h
            cases hc : Currency.fromStr t1 with
            | error e => rw [hc] at h; simp at h
            | ok c =>
              rw [hc] at h
              simp only [Except.ok.injEq] at h
              subst h
              exact ⟨t0, t1, rfl, hv⟩

/-- Witness for C8: applying the invariant to the parse of "10 $". -/
theorem money_invariant_witness :
    (Money.mk (FVal.finite 10) Currency.Dollar).currency = Currency.Dollar ∨
    (Money.mk (FVal.finite 10) Currency.Dollar).currency = Currency.Euro :=
  (money_invariant "10 $" ⟨FVal.finite 10, Currency.Dollar⟩ (by decide)).1

/-- C9: the currency lookup is a total function over strings: every token
maps to either an `Ok` currency or the specific unknown-currency error. -/
theorem currency_total (s : String) :
    (∃ c, Currency.fromStr s = Except.ok c) ∨
    Currency.fromStr s = Except.error (MoneyError.ParseCurrency "Unknown currency") := by
  unfold Currency.fromStr currencyMatch
  split
  · exact Or.inl ⟨Currency.Dollar, rfl⟩
  · split
    · exact Or.inl ⟨Currency.Euro, rfl⟩
    · exact Or.inr rfl

end MoneyModel
